import Mathlib

/-!
Verification of the `StatisticsGen` component constructor
(`tfx/components/statistics_gen/component.py`).

The constructor wires caller arguments into a `StatisticsGenSpec` record:
it defaults `exclude_splits` to `[]` (logging one informational message when
it does so), creates a fresh output channel of artifact type
`ExampleStatistics`, serializes the optional `stats_options` through the
options object's own `to_json` method guarded by Python truthiness, and
serializes `exclude_splits` with `json_utils.dumps`.
-/

namespace TfxStatisticsGen

/-- Modelled from the spec: one character of the JSON-like string encoding
used by the generic serialization utility (`tfx.utils.json_utils`, which is
repository code not under src/).  A quote or backslash is escaped with a
backslash; every other character stands for itself. -/
def escapeChar (c : Char) : List Char :=
  if c = '"' ∨ c = '\\' then ['\\', c] else [c]

/-- Escape a whole string (as a character list). -/
def escapeStr : List Char → List Char
  | [] => []
  | c :: cs => escapeChar c ++ escapeStr cs

/-- Encode the elements of a nonempty string list: each element is quoted,
elements are separated by commas, and the closing bracket is appended. -/
def encItems : List (List Char) → List Char
  | [] => [']']
  | [x] => '"' :: (escapeStr x ++ '"' :: ']' :: [])
  | x :: xs => '"' :: (escapeStr x ++ '"' :: ',' :: encItems xs)

/-- Encode a string list as a JSON-like array. -/
def encList : List (List Char) → List Char
  | [] => ['[', ']']
  | xs => '[' :: encItems xs

/-- Decode a quoted string: the input starts right after the opening quote;
on success return the decoded content and the characters after the closing
quote. -/
def parseStr : List Char → Option (List Char × List Char)
  | [] => none
  | c :: cs =>
    if c = '\\' then
      match cs with
      | [] => none
      | d :: ds =>
        match parseStr ds with
        | some (s, r) => some (d :: s, r)
        | none => none
    else if c = '"' then
      some ([], cs)
    else
      match parseStr cs with
      | some (s, r) => some (c :: s, r)
      | none => none

/-- Decode a nonempty comma-separated run of quoted strings followed by the
closing bracket.  `fuel` bounds the number of elements. -/
def parseItems : Nat → List Char → Option (List (List Char) × List Char)
  | 0, _ => none
  | _ + 1, [] => none
  | fuel + 1, c :: cs =>
    if c = '"' then
      match parseStr cs with
      | none => none
      | some (s, r) =>
        match r with
        | [] => none
        | d :: ds =>
          if d = ',' then
            match parseItems fuel ds with
            | some (ss, r2) => some (s :: ss, r2)
            | none => none
          else if d = ']' then
            some ([s], ds)
          else none
    else none

/-- Decode a JSON-like array of strings, returning the decoded list and the
remaining characters. -/
def parseList : List Char → Option (List (List Char) × List Char)
  | [] => none
  | c :: cs =>
    if c = '[' then
      match cs with
      | [] => none
      | d :: _ =>
        if d = ']' then some ([], cs.tail)
        else parseItems cs.length cs
    else none

/-- Modelled from the spec: `json_utils.dumps` (repository code not under
src/), the "generic JSON-like serialization utility" that serializes an
ordered sequence of strings to a string-encoded form decodable by the
downstream engine. -/
def dumps (xs : List String) : String :=
  String.mk (encList (xs.map String.data))

/-- Modelled from the spec: the downstream decoder matching `dumps`
(the spec's round-trip law fixes its behaviour on encoder outputs). -/
def loads (s : String) : Option (List String) :=
  match parseList s.data with
  | some (ss, []) => some (ss.map String.mk)
  | _ => none

/-- Modelled from the spec: a `tfx.types.Channel` is an opaque typed handle
to a collection of artifacts, identified by an artifact-type tag.  The `id`
field models Python object identity (allocation order), which distinguishes
a freshly constructed channel from pre-existing ones. -/
structure Channel where
  type : String
  id : Nat
deriving DecidableEq

/-- Artifact-type tag of `standard_artifacts.ExampleStatistics`. -/
def ExampleStatisticsType : String := "ExampleStatistics"

/-- Modelled from the spec: external `tfdv.StatsOptions` is opaque to this
component.  The embedding keeps the two observables the constructor uses:
the object's Python truthiness and the result of its own `to_json` method. -/
structure StatsOptions where
  truthy : Bool
  to_json : String
deriving DecidableEq

/-- Model of `standard_component_specs.StatisticsGenSpec` (repository code
not under src/), modelled from the spec: an immutable record aggregating the
examples channel, the optional schema channel, the serialized options (or the
absent sentinel), the serialized exclude-splits, and the output channel. -/
structure StatisticsGenSpec where
  examples : Channel
  schema : Option Channel
  stats_options_json : Option String
  exclude_splits : String
  statistics : Channel
deriving DecidableEq

/-- The constructed component: it holds the spec record registered with the
base component abstraction. -/
structure StatisticsGen where
  spec : StatisticsGenSpec
deriving DecidableEq

/-- Modelled from the spec: the `outputs` mapping the base component
abstraction derives from the spec record has exactly one entry, key
"statistics", value the spec's statistics channel. -/
def StatisticsGen.outputs (c : StatisticsGen) : List (String × Channel) :=
  [("statistics", c.spec.statistics)]

/-- The informational message logged when `exclude_splits` defaults. -/
def excludeSplitsDefaultMsg : String :=
  "Excluding no splits because exclude_splits is not set."

/-- Result of running the constructor: the component and the informational
log messages emitted while constructing it. -/
structure InitResult where
  component : StatisticsGen
  infoLogs : List String
deriving DecidableEq

/-- Shallow embedding of `StatisticsGen.__init__`.  `fresh` models the Python
allocator: it is the identity of the statistics `Channel` created by the
constructor, assumed larger than the ids of pre-existing channels in the
freshness theorems. -/
def StatisticsGen.init (examples : Channel) (schema : Option Channel)
    (stats_options : Option StatsOptions) (exclude_splits : Option (List String))
    (fresh : Nat) : InitResult :=
  let p : List String × List String :=
    match exclude_splits with
    | none => ([], [excludeSplitsDefaultMsg])
    | some xs => (xs, [])
  let statistics : Channel := { type := ExampleStatisticsType, id := fresh }
  let stats_options_json : Option String :=
    match stats_options with
    | none => none
    | some o => if o.truthy then some o.to_json else none
  { component :=
      { spec :=
          { examples := examples
            schema := schema
            stats_options_json := stats_options_json
            exclude_splits := dumps p.1
            statistics := statistics } }
    infoLogs := p.2 }

/-- Variant of the embedding for the error-handling claim.  The two fallible
collaborators — the options object's `to_json` method and the base component
initializer invoked by `super().__init__` (both external to src/) — are
passed as `Except`-valued functions; the constructor body itself introduces
no failure of its own. -/
def StatisticsGen.initE (toJsonE : StatsOptions → Except String String)
    (baseInitE : StatisticsGenSpec → Except String Unit)
    (examples : Channel) (schema : Option Channel)
    (stats_options : Option StatsOptions) (exclude_splits : Option (List String))
    (fresh : Nat) : Except String InitResult :=
  let p : List String × List String :=
    match exclude_splits with
    | none => ([], [excludeSplitsDefaultMsg])
    | some xs => (xs, [])
  let statistics : Channel := { type := ExampleStatisticsType, id := fresh }
  let sojE : Except String (Option String) :=
    match stats_options with
    | none => Except.ok none
    | some o => if o.truthy then (toJsonE o).map some else Except.ok none
  match sojE with
  | Except.error e => Except.error e
  | Except.ok soj =>
    let spec : StatisticsGenSpec :=
      { examples := examples
        schema := schema
        stats_options_json := soj
        exclude_splits := dumps p.1
        statistics := statistics }
    match baseInitE spec with
    | Except.error e => Except.error e
    | Except.ok _ => Except.ok { component := { spec := spec }, infoLogs := p.2 }

/-- Decoding an encoder-escaped string recovers it exactly. -/
theorem parseStr_escape (s rest : List Char) :
    parseStr (escapeStr s ++ '"' :: rest) = some (s, rest) := by
  induction s with
  | nil =>
    simp only [escapeStr, List.nil_append]
    rw [parseStr.eq_def]
    simp [show ('"' : Char) ≠ '\\' from by decide]
  | cons c cs ih =>
    by_cases h : c = '"' ∨ c = '\\'
    · simp only [escapeStr, escapeChar, if_pos h, List.cons_append, List.append_assoc,
        List.nil_append]
      rw [parseStr.eq_def]
      simp [ih]
    · have h1 : c ≠ '"' := fun hc => h (Or.inl hc)
      have h2 : c ≠ '\\' := fun hc => h (Or.inr hc)
      simp only [escapeStr, escapeChar, if_neg h, List.cons_append, List.nil_append]
      rw [parseStr.eq_def]
      simp [h1, h2, ih]

/-- The element encoding is at least as long as the element list. -/
theorem le_length_encItems (xs : List (List Char)) :
    xs.length ≤ (encItems xs).length := by
  induction xs with
  | nil => simp [encItems]
  | cons x xs ih =>
    cases xs with
    | nil => simp [encItems]
    | cons y ys =>
      simp only [encItems, List.length_cons, List.length_append] at ih ⊢
      omega

/-- Decoding the element encoding of a nonempty list recovers it, for any
fuel at least the number of elements. -/
theorem parseItems_enc :
    ∀ (xs : List (List Char)) (fuel : Nat) (rest : List Char),
      xs ≠ [] → xs.length ≤ fuel →
      parseItems fuel (encItems xs ++ rest) = some (xs, rest) := by
  intro xs
  induction xs with
  | nil => intro fuel rest h _; exact absurd rfl h
  | cons x xs ih =>
    intro fuel rest _ hlen
    cases fuel with
    | zero => simp only [List.length_cons] at hlen; omega
    | succ f =>
      cases xs with
      | nil =>
        simp only [encItems, List.cons_append, List.append_assoc, List.nil_append]
        rw [parseItems.eq_def]
        simp [parseStr_escape, show (']' : Char) ≠ ',' from by decide]
      | cons y ys =>
        have hlen2 : (y :: ys).length ≤ f := by
          simp only [List.length_cons] at hlen ⊢; omega
        simp only [encItems, List.cons_append, List.append_assoc, List.nil_append]
        rw [parseItems.eq_def]
        simp [parseStr_escape, ih f rest (by simp) hlen2]

/-- Decoding the array encoding of any string list recovers it with no
characters left over. -/
theorem parseList_enc (xs : List (List Char)) :
    parseList (encList xs) = some (xs, []) := by
  cases xs with
  | nil => decide
  | cons x xs =>
    have hform : ∃ t, encItems (x :: xs) = '"' :: t := by
      cases xs with
      | nil => exact ⟨_, rfl⟩
      | cons y ys => exact ⟨_, rfl⟩
    obtain ⟨t, ht⟩ := hform
    have hp : parseItems (t.length + 1) ('"' :: t) = some (x :: xs, []) := by
      have h := parseItems_enc (x :: xs) (encItems (x :: xs)).length []
        (by simp) (le_length_encItems (x :: xs))
      rw [List.append_nil, ht] at h
      simpa using h
    show parseList ('[' :: encItems (x :: xs)) = some (x :: xs, [])
    rw [ht, parseList.eq_def]
    simp [hp, show ('"' : Char) ≠ ']' from by decide]

/-- Round trip of the modelled serialization utility: decoding the encoding
of any string list gives back exactly that list. -/
theorem loads_dumps (xs : List String) : loads (dumps xs) = some xs := by
  have h : parseList (dumps xs).data = some (xs.map String.data, []) :=
    parseList_enc (xs.map String.data)
  unfold loads
  rw [h]
  simp [List.map_map, Function.comp_def, show ∀ s : String, String.mk s.data = s from fun _ => rfl]

/-- Errors of the propagation pattern `match E with | error e => error e | ok _ => k`
can only come from `E` itself. -/
theorem match_propagates_error {α : Type} (E : Except String Unit) (r : α) (e : String)
    (h : (match E with
          | Except.error err => Except.error err
          | Except.ok _ => Except.ok r) = Except.error e) :
    E = Except.error e := by
  cases E with
  | error err => simpa using h
  | ok u => simp at h

/-- Claim C1: when `exclude_splits` is omitted, the spec's serialized
exclude-splits field decodes to the empty sequence and exactly one
informational log message is emitted. -/
theorem statisticsGen_default_exclude_splits
    (examples : Channel) (schema : Option Channel)
    (stats_options : Option StatsOptions) (fresh : Nat) :
    loads (StatisticsGen.init examples schema stats_options none
        fresh).component.spec.exclude_splits = some []
    ∧ (StatisticsGen.init examples schema stats_options none fresh).infoLogs
        = [excludeSplitsDefaultMsg] := by
  constructor
  · show loads (dumps []) = some []
    exact loads_dumps []
  · rfl

/-- Claim C2: when `exclude_splits` is a non-empty sequence of strings, the
serialized field decodes back to exactly that sequence, in order. -/
theorem statisticsGen_exclude_splits_round_trip
    (examples : Channel) (schema : Option Channel)
    (stats_options : Option StatsOptions) (xs : List String) (fresh : Nat)
    (_hne : xs ≠ []) :
    loads (StatisticsGen.init examples schema stats_options (some xs)
        fresh).component.spec.exclude_splits = some xs := by
  show loads (dumps xs) = some xs
  exact loads_dumps xs

/-- Witness for C2 at `exclude_splits = ["eval"]`. -/
theorem statisticsGen_exclude_splits_round_trip_witness :
    loads (StatisticsGen.init ⟨"Examples", 0⟩ none none (some ["eval"])
        1).component.spec.exclude_splits = some ["eval"] :=
  statisticsGen_exclude_splits_round_trip ⟨"Examples", 0⟩ none none ["eval"] 1
    (by decide)

/-- Claim C3 counterexample: a supplied options object whose Python truthiness
is false (the constructor guards serialization with `if stats_options`, i.e.
truthiness, not an explicit None test) yields the absent sentinel, not the
object's own `to_json` output. -/
theorem statisticsGen_stats_options_json_claim_false :
    (StatisticsGen.init ⟨"Examples", 0⟩ none (some ⟨false, "opts"⟩) none
        1).component.spec.stats_options_json
      ≠ some (StatsOptions.mk false "opts").to_json := by
  decide

/-- Claim C3 (amended): when the supplied options object is truthy, the spec's
serialized-options field equals the output of the object's own `to_json`
method. -/
theorem statisticsGen_stats_options_json_of_truthy
    (examples : Channel) (schema : Option Channel) (o : StatsOptions)
    (exclude_splits : Option (List String)) (fresh : Nat)
    (htr : o.truthy = true) :
    (StatisticsGen.init examples schema (some o) exclude_splits
        fresh).component.spec.stats_options_json = some o.to_json := by
  show (if o.truthy then some o.to_json else none) = some o.to_json
  rw [htr]
  rfl

/-- Witness for the amended C3 at a concrete truthy options object. -/
theorem statisticsGen_stats_options_json_of_truthy_witness :
    (StatisticsGen.init ⟨"Examples", 0⟩ none (some ⟨true, "opts"⟩) none
        1).component.spec.stats_options_json = some (StatsOptions.mk true "opts").to_json :=
  statisticsGen_stats_options_json_of_truthy ⟨"Examples", 0⟩ none
    ⟨true, "opts"⟩ none 1 rfl

/-- Claim C4: when `stats_options` is omitted, the spec's serialized-options
field is the absent sentinel. -/
theorem statisticsGen_no_stats_options
    (examples : Channel) (schema : Option Channel)
    (exclude_splits : Option (List String)) (fresh : Nat) :
    (StatisticsGen.init examples schema none exclude_splits
        fresh).component.spec.stats_options_json = none := rfl

/-- Claim C5: the component's outputs mapping has exactly the one key
"statistics", whose value is the channel created fresh during construction
(its id is the fresh allocation id) and is distinct from the input examples
channel and from the schema channel, provided those pre-existed (their
allocation ids precede `fresh`). -/
theorem statisticsGen_outputs_single_fresh_statistics
    (examples : Channel) (schema : Option Channel)
    (stats_options : Option StatsOptions) (exclude_splits : Option (List String))
    (fresh : Nat) (hex : examples.id < fresh)
    (hsc : ∀ c, schema = some c → c.id < fresh) :
    (StatisticsGen.init examples schema stats_options exclude_splits
        fresh).component.outputs
      = [("statistics",
          (StatisticsGen.init examples schema stats_options exclude_splits
            fresh).component.spec.statistics)]
    ∧ (StatisticsGen.init examples schema stats_options exclude_splits
        fresh).component.spec.statistics ≠ examples
    ∧ ∀ c, schema = some c →
        (StatisticsGen.init examples schema stats_options exclude_splits
          fresh).component.spec.statistics ≠ c := by
  refine ⟨rfl, ?_, ?_⟩
  · intro heq
    have hid : fresh = examples.id := congrArg Channel.id heq
    omega
  · intro c hc heq
    have hid : fresh = c.id := congrArg Channel.id heq
    have := hsc c hc
    omega

/-- Witness for C5 at concrete pre-existing channels. -/
theorem statisticsGen_outputs_single_fresh_statistics_witness :
    (StatisticsGen.init ⟨"Examples", 0⟩ (some ⟨"Schema", 1⟩) none none
        2).component.outputs
      = [("statistics",
          (StatisticsGen.init ⟨"Examples", 0⟩ (some ⟨"Schema", 1⟩) none none
            2).component.spec.statistics)]
    ∧ (StatisticsGen.init ⟨"Examples", 0⟩ (some ⟨"Schema", 1⟩) none none
        2).component.spec.statistics ≠ ⟨"Examples", 0⟩
    ∧ ∀ c, (some ⟨"Schema", 1⟩ : Option Channel) = some c →
        (StatisticsGen.init ⟨"Examples", 0⟩ (some ⟨"Schema", 1⟩) none none
          2).component.spec.statistics ≠ c :=
  statisticsGen_outputs_single_fresh_statistics ⟨"Examples", 0⟩
    (some ⟨"Schema", 1⟩) none none 2 (by decide)
    (by intro c hc; injection hc with h; rw [← h]; decide)

/-- Claim C6: the output channel placed in the spec under the statistics
field has artifact type ExampleStatistics, regardless of all inputs. -/
theorem statisticsGen_statistics_type
    (examples : Channel) (schema : Option Channel)
    (stats_options : Option StatsOptions) (exclude_splits : Option (List String))
    (fresh : Nat) :
    (StatisticsGen.init examples schema stats_options exclude_splits
        fresh).component.spec.statistics.type = ExampleStatisticsType := rfl

/-- Claim C7: the constructor raises no errors of its own — whenever the
fallible embedding fails, the error is exactly an error returned by one of
the collaborators (the options object's `to_json` method, invoked only on a
supplied truthy options value, or the base-component initializer). -/
theorem statisticsGen_errors_only_from_collaborators
    (toJsonE : StatsOptions → Except String String)
    (baseInitE : StatisticsGenSpec → Except String Unit)
    (examples : Channel) (schema : Option Channel)
    (stats_options : Option StatsOptions) (exclude_splits : Option (List String))
    (fresh : Nat) (e : String)
    (h : StatisticsGen.initE toJsonE baseInitE examples schema stats_options
        exclude_splits fresh = Except.error e) :
    (∃ o, stats_options = some o ∧ o.truthy = true ∧ toJsonE o = Except.error e)
    ∨ (∃ spec, baseInitE spec = Except.error e) := by
  unfold StatisticsGen.initE at h
  cases stats_options with
  | none =>
    simp only at h
    exact Or.inr ⟨_, match_propagates_error _ _ _ h⟩
  | some o =>
    simp only at h
    cases htr : o.truthy with
    | false =>
      rw [htr] at h
      simp only [Bool.false_eq_true, if_false] at h
      exact Or.inr ⟨_, match_propagates_error _ _ _ h⟩
    | true =>
      rw [htr] at h
      simp only [if_true] at h
      cases hj : toJsonE o with
      | error eo =>
        rw [hj] at h
        simp only [Except.map] at h
        have : eo = e := by simpa using h
        exact Or.inl ⟨o, rfl, htr, by rw [hj, this]⟩
      | ok s =>
        rw [hj] at h
        simp only [Except.map] at h
        exact Or.inr ⟨_, match_propagates_error _ _ _ h⟩

/-- Witness for C7: a concrete construction whose only failure is the
collaborator `to_json` failing. -/
theorem statisticsGen_errors_only_from_collaborators_witness :
    (∃ o, (some (StatsOptions.mk true "j") : Option StatsOptions) = some o
        ∧ o.truthy = true
        ∧ (fun _ : StatsOptions => (Except.error "boom" : Except String String)) o
            = Except.error "boom")
    ∨ (∃ spec, (fun _ : StatisticsGenSpec => (Except.ok () : Except String Unit)) spec
        = Except.error "boom") :=
  statisticsGen_errors_only_from_collaborators
    (fun _ => Except.error "boom") (fun _ => Except.ok ())
    ⟨"Examples", 0⟩ none (some ⟨true, "j"⟩) none 1 "boom" rfl

/-- Claim C8: with an explicitly supplied `exclude_splits` the serialized
field decodes to exactly the supplied list and no informational message is
emitted; the defaulting log is emitted only in the omitted case. -/
theorem statisticsGen_explicit_exclude_splits_no_log
    (examples : Channel) (schema : Option Channel)
    (stats_options : Option StatsOptions) (xs : List String) (fresh : Nat) :
    loads (StatisticsGen.init examples schema stats_options (some xs)
        fresh).component.spec.exclude_splits = some xs
    ∧ (StatisticsGen.init examples schema stats_options (some xs) fresh).infoLogs = []
    ∧ (StatisticsGen.init examples schema stats_options none fresh).infoLogs
        = [excludeSplitsDefaultMsg] := by
  refine ⟨?_, rfl, rfl⟩
  show loads (dumps xs) = some xs
  exact loads_dumps xs

/-- Claim C9: presence of `stats_options` is decided by Python truthiness —
the serialized-options field equals the object's `to_json` output exactly
when the supplied object is truthy, and in general equals the truthiness
guard applied to the serialization. -/
theorem statisticsGen_stats_options_truthiness
    (examples : Channel) (schema : Option Channel) (o : StatsOptions)
    (exclude_splits : Option (List String)) (fresh : Nat) :
    ((StatisticsGen.init examples schema (some o) exclude_splits
          fresh).component.spec.stats_options_json = some o.to_json
        ↔ o.truthy = true)
    ∧ (StatisticsGen.init examples schema (some o) exclude_splits
        fresh).component.spec.stats_options_json
      = (if o.truthy then some o.to_json else none) := by
  refine ⟨?_, rfl⟩
  show (if o.truthy then some o.to_json else none) = some o.to_json ↔ o.truthy = true
  cases htr : o.truthy <;> simp

/-- Claim C10: an explicitly supplied empty `exclude_splits` list produces
the same serialized exclude-splits value as omitting the argument, but emits
no informational log message. -/
theorem statisticsGen_empty_exclude_splits_same_no_log
    (examples : Channel) (schema : Option Channel)
    (stats_options : Option StatsOptions) (fresh : Nat) :
    (StatisticsGen.init examples schema stats_options (some [])
        fresh).component.spec.exclude_splits
      = (StatisticsGen.init examples schema stats_options none
          fresh).component.spec.exclude_splits
    ∧ (StatisticsGen.init examples schema stats_options (some []) fresh).infoLogs
        = [] :=
  ⟨rfl, rfl⟩

end TfxStatisticsGen
